import Mathlib

/-!
Shallow embedding of the QR-code pipeline of the `zxing` JavaScript port
(`javascript-core`), together with theorems settling the frozen claims about
its specification.

JavaScript numeric semantics are modelled as follows:
* integer arithmetic on values that stay below 2^31 is modelled with `Nat`
  (bitwise `&`, `|`, `^`, `<<`, `>>` become `&&&`, `|||`, `^^^`, `<<<`, `>>>`);
* `x & ~1` on a non-negative 32-bit integer is modelled as `x &&& 0xFFFFFFFE`;
* floating-point division of small integers (exactly representable in a
  `double`) is modelled with exact rational arithmetic over `ℚ`;
* thrown exceptions become `Except` errors;
* out-of-bounds reads of a JS `Uint32Array`/`Int32Array` yield `undefined`,
  which behaves as `0` under the bitwise operators used here, and
  out-of-bounds writes are silently dropped; both are modelled explicitly.
-/

set_option maxRecDepth 10000

/-- Exceptions thrown by the JavaScript code (plus `typeError`, raised by the
JS runtime itself when a non-function such as `Math.floo` is invoked). -/
inductive JsError where
  | illegalArgument
  | arithmetic
  | reedSolomon
  | illegalState
  | format
  | typeError
  | writer
  | notFound
  | fuelExhausted
  deriving DecidableEq, Repr

/-! ## Detector.computeDimension (Detector.js, lines 173-190)

`computeDimension` first rounds the two center distances divided by the module
size (`MathUtils.round(...)`, a float operation); the claim is stated in terms
of those two rounded module counts, which we take as the `Nat` arguments
`tltrCentersDimension` and `tlblCentersDimension`.  From there every operation
is integer-valued: `Math.floor((a + b) / 2) + 7` is Nat division, and
`dimension & 0x03` is `% 4`. -/

def Detector.computeDimension (tltrCentersDimension tlblCentersDimension : ℕ) :
    Except JsError ℕ :=
  let dimension := (tltrCentersDimension + tlblCentersDimension) / 2 + 7
  match dimension % 4 with
  | 0 => .ok (dimension + 1)
  | 2 => .ok (dimension - 1)
  | 3 => .error .notFound
  | _ => .ok dimension

/-! ## GenericGF (common/reedsolomon/GenericGF.js)

Field elements are ints in `0 .. size-1`; the constructor builds the exp/log
tables by repeated doubling with reduction by the primitive polynomial. -/

def GenericGF.tableStep (primitive size x : ℕ) : ℕ :=
  let x2 := x * 2
  if x2 ≥ size then (x2 ^^^ primitive) &&& (size - 1) else x2

def GenericGF.buildExpTable (primitive size : ℕ) : ℕ → ℕ → List ℕ
  | 0, _ => []
  | n + 1, x => x :: GenericGF.buildExpTable primitive size n
      (GenericGF.tableStep primitive size x)

structure GenericGF where
  primitive : ℕ
  size : ℕ
  generatorBase : ℕ
  expTable : List ℕ
  logTable : List ℕ
  deriving Repr

def GenericGF.create (primitive size b : ℕ) : GenericGF :=
  let expT := GenericGF.buildExpTable primitive size size 1
  let logT := (List.range (size - 1)).foldl
    (fun t i => t.set (expT.getD i 0) i) (List.replicate size 0)
  ⟨primitive, size, b, expT, logT⟩

def QR_CODE_FIELD_256 : GenericGF := GenericGF.create 0x011D 256 0

def GenericGF.exp (f : GenericGF) (a : ℕ) : ℕ := f.expTable.getD a 0

def GenericGF.log (f : GenericGF) (a : ℕ) : Except JsError ℕ :=
  if a = 0 then .error .illegalArgument else .ok (f.logTable.getD a 0)

/-- Implements both addition and subtraction -- they are the same in GF(size). -/
def GenericGF.addOrSubtract (a b : ℕ) : ℕ := a ^^^ b

def GenericGF.inverse (f : GenericGF) (a : ℕ) : Except JsError ℕ :=
  if a = 0 then .error .arithmetic
  else .ok (f.expTable.getD (f.size - f.logTable.getD a 0 - 1) 0)

def GenericGF.multiply (f : GenericGF) (a b : ℕ) : ℕ :=
  if a = 0 ∨ b = 0 then 0
  else f.expTable.getD
    ((f.logTable.getD a 0 + f.logTable.getD b 0) % (f.size - 1)) 0

/-- Monomial `coefficient * x^degree`, as a coefficient list (most significant
first), from `GenericGF.buildMonomial`. -/
def GenericGF.buildMonomial (degree coefficient : ℕ) : List ℕ :=
  if coefficient = 0 then [0] else coefficient :: List.replicate degree 0

/-! ## GenericGFPoly (common/reedsolomon/GenericGFPoly.js)

A polynomial is its coefficient list, most-significant (highest power) first,
as in the source. The constructor strips leading zeros; the zero polynomial
is `[0]`. The source never constructs an empty list; list-access defaults of
`0` below are unreachable at those call sites. -/

def GenericGFPoly.normalize (coefficients : List ℕ) : List ℕ :=
  if 1 < coefficients.length ∧ coefficients.headD 0 = 0 then
    let stripped := coefficients.dropWhile (· = 0)
    if stripped.isEmpty then [0] else stripped
  else coefficients

def GenericGFPoly.getDegree (p : List ℕ) : ℕ := p.length - 1

def GenericGFPoly.isZero (p : List ℕ) : Bool := p.headD 0 = 0

/-- Coefficient of the `x^degree` term. -/
def GenericGFPoly.getCoefficient (p : List ℕ) (degree : ℕ) : ℕ :=
  p.getD (p.length - 1 - degree) 0

def GenericGFPoly.evaluateAt (f : GenericGF) (p : List ℕ) (a : ℕ) : ℕ :=
  if a = 0 then GenericGFPoly.getCoefficient p 0
  else if a = 1 then p.foldl (fun result c => GenericGF.addOrSubtract result c) 0
  else
    match p with
    | [] => 0
    | c0 :: rest =>
      rest.foldl (fun result c => GenericGF.addOrSubtract (f.multiply a result) c) c0

def GenericGFPoly.addOrSubtract (p other : List ℕ) : List ℕ :=
  if GenericGFPoly.isZero p then other
  else if GenericGFPoly.isZero other then p
  else
    let smaller := if p.length > other.length then other else p
    let larger := if p.length > other.length then p else other
    let lengthDiff := larger.length - smaller.length
    GenericGFPoly.normalize
      (larger.take lengthDiff ++
        (smaller.zipWith GenericGF.addOrSubtract (larger.drop lengthDiff)))

/-- Product of two polynomials.  The source's double loop accumulates
`product[i+j] ^= multiply(p[i], other[j])`; here each `product[k]` is computed
directly as the XOR over all `i` with `0 <= k - i < other.length` of the same
summands, in the same (increasing `i`) order. -/
def GenericGFPoly.multiply (f : GenericGF) (p other : List ℕ) : List ℕ :=
  if GenericGFPoly.isZero p ∨ GenericGFPoly.isZero other then [0]
  else
    let aLength := p.length
    let bLength := other.length
    let product := (List.range (aLength + bLength - 1)).map (fun k =>
      (List.range aLength).foldl (fun acc i =>
        if k ≥ i ∧ k - i < bLength then
          GenericGF.addOrSubtract acc (f.multiply (p.getD i 0) (other.getD (k - i) 0))
        else acc) 0)
    GenericGFPoly.normalize product

def GenericGFPoly.multiplyByScalar (f : GenericGF) (p : List ℕ) (scalar : ℕ) : List ℕ :=
  if scalar = 0 then [0]
  else if scalar = 1 then p
  else GenericGFPoly.normalize (p.map (fun c => f.multiply c scalar))

def GenericGFPoly.multiplyByMonomial (f : GenericGF) (p : List ℕ)
    (degree coefficient : ℕ) : List ℕ :=
  if coefficient = 0 then [0]
  else GenericGFPoly.normalize
    (p.map (fun c => f.multiply c coefficient) ++ List.replicate degree 0)

/-! ## ReedSolomonDecoder.findErrorMagnitudes (ReedSolomonDecoder.js, 163-188) -/

/-- Forney denominator factor exactly as implemented:
`(term & 0x1) === 0 ? term | 1 : term & ~1` (the documented JIT-bug
workaround). `term & ~1` on a non-negative 32-bit int is `term &&& 0xFFFFFFFE`. -/
def ReedSolomonDecoder.termPlus1 (term : ℕ) : ℕ :=
  if term &&& 1 = 0 then term ||| 1 else term &&& 0xFFFFFFFE

/-- Forney denominator factor as the spec sentence words it (for the
refinement comparison only): "force LSB to `1 | (term & ~1)` if term's LSB is
0, else `term | 1`". -/
def specForneyFactor (term : ℕ) : ℕ :=
  if term &&& 1 = 0 then 1 ||| (term &&& 0xFFFFFFFE) else term ||| 1

def ReedSolomonDecoder.forneyDenominator (f : GenericGF) (errorLocations : List ℕ)
    (i xiInverse : ℕ) : ℕ :=
  (List.range errorLocations.length).foldl
    (fun denominator j =>
      if i ≠ j then
        f.multiply denominator
          (ReedSolomonDecoder.termPlus1 (f.multiply (errorLocations.getD j 0) xiInverse))
      else denominator) 1

/-- Denominator of the unmodified Forney formula (the commented-out exact code
path `GenericGF.addOrSubtract(1, field.multiply(errorLocations[j], xiInverse))`). -/
def ReedSolomonDecoder.forneyDenominatorUnmodified (f : GenericGF)
    (errorLocations : List ℕ) (i xiInverse : ℕ) : ℕ :=
  (List.range errorLocations.length).foldl
    (fun denominator j =>
      if i ≠ j then
        f.multiply denominator
          (GenericGF.addOrSubtract 1 (f.multiply (errorLocations.getD j 0) xiInverse))
      else denominator) 1

def ReedSolomonDecoder.findErrorMagnitudes (f : GenericGF)
    (errorEvaluator errorLocations : List ℕ) : Except JsError (List ℕ) :=
  (List.range errorLocations.length).mapM (fun i => do
    let xiInverse ← f.inverse (errorLocations.getD i 0)
    let denominator := ReedSolomonDecoder.forneyDenominator f errorLocations i xiInverse
    let dInv ← f.inverse denominator
    let r := f.multiply (GenericGFPoly.evaluateAt f errorEvaluator xiInverse) dInv
    if f.generatorBase ≠ 0 then pure (f.multiply r xiInverse) else pure r)

/-- Error magnitudes computed with the unmodified Forney denominator. -/
def ReedSolomonDecoder.findErrorMagnitudesUnmodified (f : GenericGF)
    (errorEvaluator errorLocations : List ℕ) : Except JsError (List ℕ) :=
  (List.range errorLocations.length).mapM (fun i => do
    let xiInverse ← f.inverse (errorLocations.getD i 0)
    let denominator := ReedSolomonDecoder.forneyDenominatorUnmodified f errorLocations i xiInverse
    let dInv ← f.inverse denominator
    let r := f.multiply (GenericGFPoly.evaluateAt f errorEvaluator xiInverse) dInv
    if f.generatorBase ≠ 0 then pure (f.multiply r xiInverse) else pure r)

/-! ## BitMatrix (common/BitMatrix.js)

The constructor's default row size is `(width + 31) / 32` -- JavaScript float
division, which is exact here, so it is modelled as a rational.  The backing
store defaults to a plain JS array (`bits = []`); indexing it with the
(generally fractional) offset `y * rowSize + x / 32` is a property access on
that array object, modelled as an association list keyed by the rational
offset.  A read of an absent property yields `undefined`, which behaves as `0`
under `>>>`, `&`, `|` and `^`; word values are kept as naturals below 2^32
(the unsigned view of the stored 32-bit integers). -/

structure BitMatrix where
  width : ℕ
  height : ℕ
  rowSize : ℚ
  bits : List (ℚ × ℕ)
  deriving DecidableEq, Repr

deriving instance DecidableEq for Except

def BitMatrix.defaultRowSize (width : ℕ) : ℚ := ((width : ℚ) + 31) / 32

def BitMatrix.create (width height : ℕ) : BitMatrix :=
  ⟨width, height, BitMatrix.defaultRowSize width, []⟩

def BitMatrix.propRead (bits : List (ℚ × ℕ)) (k : ℚ) : ℕ :=
  ((bits.find? (fun e => decide (e.1 = k))).map Prod.snd).getD 0

def BitMatrix.propWrite (bits : List (ℚ × ℕ)) (k : ℚ) (v : ℕ) : List (ℚ × ℕ) :=
  (k, v) :: bits

def BitMatrix.offset (m : BitMatrix) (x y : ℕ) : ℚ :=
  (y : ℚ) * m.rowSize + (x : ℚ) / 32

def BitMatrix.get (m : BitMatrix) (x y : ℕ) : Bool :=
  ((BitMatrix.propRead m.bits (m.offset x y)) >>> (x % 32)) &&& 1 != 0

def BitMatrix.set (m : BitMatrix) (x y : ℕ) : BitMatrix :=
  let k := m.offset x y
  let v := (BitMatrix.propRead m.bits k) ||| (1 <<< (x % 32))
  { m with bits := BitMatrix.propWrite m.bits k v }

def BitMatrix.unset (m : BitMatrix) (x y : ℕ) : BitMatrix :=
  let k := m.offset x y
  let v := (BitMatrix.propRead m.bits k) &&& (0xFFFFFFFF ^^^ (1 <<< (x % 32)))
  { m with bits := BitMatrix.propWrite m.bits k v }

def BitMatrix.flip (m : BitMatrix) (x y : ℕ) : BitMatrix :=
  let k := m.offset x y
  let v := (BitMatrix.propRead m.bits k) ^^^ (1 <<< (x % 32))
  { m with bits := BitMatrix.propWrite m.bits k v }

def BitMatrix.getRowSize (m : BitMatrix) : ℚ := m.rowSize

/-! ## BitArray (common/BitArray.js)

The default constructor allocates `new Uint32Array(Math.floor((size+31)/32))`
words -- for the ubiquitous `new BitArray()` that is a length-0 typed array.
`appendBit` writes `bits[floor(size/32)] |= 1 << (size & 0x1F)` without ever
growing the backing array: in JavaScript an out-of-bounds typed-array write is
silently dropped, and an out-of-bounds read yields `undefined`, which behaves
as `0` under the bitwise operators used in `get`/`appendBit`/`xor`. -/

structure BitArray where
  size : ℕ
  bits : List ℕ
  deriving DecidableEq, Repr

def BitArray.create (size : ℕ) : BitArray := ⟨size, List.replicate ((size + 31) / 32) 0⟩

def BitArray.wordRead (bs : List ℕ) (i : ℕ) : ℕ := bs.getD i 0

def BitArray.wordWrite (bs : List ℕ) (i v : ℕ) : List ℕ :=
  if i < bs.length then bs.set i v else bs

def BitArray.getSize (a : BitArray) : ℕ := a.size

def BitArray.get (a : BitArray) (i : ℕ) : Bool :=
  (BitArray.wordRead a.bits (i / 32)) &&& (1 <<< (i % 32)) != 0

def BitArray.appendBit (a : BitArray) (bit : Bool) : BitArray :=
  let newWord := (BitArray.wordRead a.bits (a.size / 32)) ||| (1 <<< (a.size % 32))
  let a' :=
    if bit then { a with bits := BitArray.wordWrite a.bits (a.size / 32) newWord }
    else a
  { a' with size := a'.size + 1 }

def BitArray.appendBitsGo (value : ℕ) (a : BitArray) : ℕ → BitArray
  | 0 => a
  | numBitsLeft + 1 =>
    BitArray.appendBitsGo value
      (a.appendBit (((value >>> numBitsLeft) &&& 1) == 1)) numBitsLeft

def BitArray.appendBits (a : BitArray) (value numBits : ℕ) : Except JsError BitArray :=
  if numBits > 32 then .error .illegalArgument
  else .ok (BitArray.appendBitsGo value a numBits)

def BitArray.xor (a other : BitArray) : Except JsError BitArray :=
  if a.bits.length ≠ other.bits.length then .error .illegalArgument
  else .ok { a with bits := a.bits.zipWith (fun x y => x ^^^ y) other.bits }

/-! ## MatrixUtil BCH encoding (qrcode/encoder/QRCode.js, lines 368-440)

`findMSBSet` halves `value` until it reaches 0; since `value` strictly
decreases at each halving, `value` itself bounds the iteration count and is
used as structural fuel.  Likewise each `calculateBCHCode` division step
cancels the current top bit of `value`, strictly decreasing it, so the initial
value bounds the loop count. -/

def MatrixUtil.findMSBSetAux : ℕ → ℕ → ℕ
  | _, 0 => 0
  | 0, _ + 1 => 0
  | fuel + 1, value + 1 => MatrixUtil.findMSBSetAux fuel ((value + 1) / 2) + 1

def MatrixUtil.findMSBSet (value : ℕ) : ℕ := MatrixUtil.findMSBSetAux value value

def MatrixUtil.bchLoopAux (poly msbSetInPoly : ℕ) : ℕ → ℕ → ℕ
  | 0, value => value
  | fuel + 1, value =>
    if MatrixUtil.findMSBSet value ≥ msbSetInPoly then
      MatrixUtil.bchLoopAux poly msbSetInPoly fuel
        (value ^^^ (poly <<< (MatrixUtil.findMSBSet value - msbSetInPoly)))
    else value

def MatrixUtil.calculateBCHCode (value poly : ℕ) : Except JsError ℕ :=
  if poly = 0 then .error .illegalArgument
  else
    let msbSetInPoly := MatrixUtil.findMSBSet poly
    let shifted := value <<< (msbSetInPoly - 1)
    .ok (MatrixUtil.bchLoopAux poly msbSetInPoly (shifted + 1) shifted)

def TYPE_INFO_POLY : ℕ := 0x537

def TYPE_INFO_MASK_PATTERN : ℕ := 0x5412

/-- MatrixUtil.makeTypeInfoBits: `ecBits` is `ecLevel.getBits()`
(L=1, M=0, Q=3, H=2 per ErrorCorrectionLevel). -/
def MatrixUtil.makeTypeInfoBits (ecBits maskPattern : ℕ) (bits : BitArray) :
    Except JsError BitArray := do
  if maskPattern ≥ 8 then throw .writer
  let typeInfo := (ecBits <<< 3) ||| maskPattern
  let bits1 ← bits.appendBits typeInfo 5
  let bchCode ← MatrixUtil.calculateBCHCode typeInfo TYPE_INFO_POLY
  let bits2 ← bits1.appendBits bchCode 10
  let maskBits ← (BitArray.create 0).appendBits TYPE_INFO_MASK_PATTERN 15
  let bits3 ← bits2.xor maskBits
  if bits3.size ≠ 15 then throw .writer
  pure bits3

/-- Type-info bits exactly as the caller `MatrixUtil.embedTypeInfo` builds
them: it always passes a fresh default-constructed `new BitArray()`. -/
def MatrixUtil.typeInfoBitsAsEmbedded (ecBits maskPattern : ℕ) : Except JsError BitArray :=
  MatrixUtil.makeTypeInfoBits ecBits maskPattern (BitArray.create 0)

/-- Intended 15-bit type-info codeword per the claim:
`(ecBits << 3) | mask` followed by its 10-bit BCH remainder mod 0x537, all
XORed with 0x5412. -/
def mathTypeInfoCode (ecBits maskPattern : ℕ) : ℕ :=
  let typeInfo := (ecBits <<< 3) ||| maskPattern
  let shifted := typeInfo <<< (MatrixUtil.findMSBSet TYPE_INFO_POLY - 1)
  ((typeInfo <<< 10) |||
    MatrixUtil.bchLoopAux TYPE_INFO_POLY (MatrixUtil.findMSBSet TYPE_INFO_POLY)
      (shifted + 1) shifted) ^^^ TYPE_INFO_MASK_PATTERN

/-- Number of set bits among bit positions 0..14. -/
def popCount15 (v : ℕ) : ℕ := ((List.range 15).filter (fun i => v.testBit i)).length

/-- The 32 intended codewords, for ecBits in the order L=1, M=0, Q=3, H=2 and
mask 0..7. -/
def allTypeInfoCodes : List ℕ :=
  ([1, 0, 3, 2].map (fun e => (List.range 8).map (fun m => mathTypeInfoCode e m))).flatten

/-! ## Encoder.chooseVersion (qrcode/encoder/Encoder.js, lines 231-248)

`Version.js` (the per-version codeword tables) is not among the sources; the
loop body's `version.getTotalCodewords() - ecBlocks.getTotalECCodewords()` is
abstracted as a function from version number to data-codeword capacity.  The
source computes `totalInputBytes = (numInputBits + 7) / 8` with JavaScript
float division and compares `numDataBytes >= totalInputBytes`, modelled
exactly over `ℚ`. -/

def Encoder.chooseVersionFrom (numInputBits : ℕ) (numDataBytesOfVersion : ℕ → ℕ) :
    ℕ → ℕ → Except JsError ℕ
  | _, 0 => .error .writer
  | versionNum, remaining + 1 =>
    if ((numDataBytesOfVersion versionNum : ℚ)) ≥ ((numInputBits : ℚ) + 7) / 8 then
      .ok versionNum
    else
      Encoder.chooseVersionFrom numInputBits numDataBytesOfVersion (versionNum + 1) remaining

def Encoder.chooseVersion (numInputBits : ℕ) (numDataBytesOfVersion : ℕ → ℕ) :
    Except JsError ℕ :=
  Encoder.chooseVersionFrom numInputBits numDataBytesOfVersion 1 40

/-- Version choice as the claim states it: smallest version whose capacity is
at least `ceil(numInputBits / 8)` computed with integer ceiling division. -/
def Encoder.chooseVersionCeilFrom (numInputBits : ℕ) (numDataBytesOfVersion : ℕ → ℕ) :
    ℕ → ℕ → Except JsError ℕ
  | _, 0 => .error .writer
  | versionNum, remaining + 1 =>
    if numDataBytesOfVersion versionNum ≥ (numInputBits + 7) / 8 then
      .ok versionNum
    else
      Encoder.chooseVersionCeilFrom numInputBits numDataBytesOfVersion (versionNum + 1) remaining

def Encoder.chooseVersionCeil (numInputBits : ℕ) (numDataBytesOfVersion : ℕ → ℕ) :
    Except JsError ℕ :=
  Encoder.chooseVersionCeilFrom numInputBits numDataBytesOfVersion 1 40

/-- Modelled from the spec: the data capacity (TotalCodewords minus the EC
level's total EC codewords) per version lives in the missing `Version.js`;
the spec gives only the subtraction formula.  For EC level L the cited
standard's tables give 26 - 7 = 19 data codewords at version 1 and
44 - 10 = 34 at version 2; versions beyond 2 are irrelevant below and map
to 0. -/
def versionDataBytesL (versionNum : ℕ) : ℕ :=
  if versionNum = 1 then 19 else if versionNum = 2 then 34 else 0

/-! ## BitSource (src/unnamed/part_003)

State-passing model of the mutable reader.  The whole-byte `while` loop
consumes 8 bits per iteration, so `numBits` itself bounds the iteration count
and serves as structural fuel; the function returns the remaining `numBits`
together with the accumulated result and reader state. -/

structure BitSource where
  bytes : List ℕ
  byteOffset : ℕ
  bitOffset : ℕ
  deriving DecidableEq, Repr

def BitSource.available (bs : BitSource) : ℕ :=
  8 * (bs.bytes.length - bs.byteOffset) - bs.bitOffset

def BitSource.readWholeBytesAux : ℕ → ℕ → ℕ → BitSource → (ℕ × ℕ × BitSource)
  | 0, numBits, result, bs => (numBits, result, bs)
  | fuel + 1, numBits, result, bs =>
    if numBits ≥ 8 then
      BitSource.readWholeBytesAux fuel (numBits - 8)
        ((result <<< 8) ||| (bs.bytes.getD bs.byteOffset 0 &&& 0xFF))
        { bs with byteOffset := bs.byteOffset + 1 }
    else (numBits, result, bs)

def BitSource.readBits (bs : BitSource) (numBits : ℕ) : Except JsError (ℕ × BitSource) :=
  if numBits < 1 ∨ numBits > 32 ∨ numBits > bs.available then .error .illegalArgument
  else
    let firstPhase :=
      if bs.bitOffset > 0 then
        let bitsLeft := 8 - bs.bitOffset
        let toRead := if numBits < bitsLeft then numBits else bitsLeft
        let bitsToNotRead := bitsLeft - toRead
        let mask := (0xFF >>> (8 - toRead)) <<< bitsToNotRead
        let r := (bs.bytes.getD bs.byteOffset 0 &&& mask) >>> bitsToNotRead
        let newBitOffset := bs.bitOffset + toRead
        let bs' :=
          if newBitOffset = 8 then
            { bs with bitOffset := 0, byteOffset := bs.byteOffset + 1 }
          else { bs with bitOffset := newBitOffset }
        (numBits - toRead, r, bs')
      else (numBits, 0, bs)
    let numBits1 := firstPhase.1
    let result1 := firstPhase.2.1
    let bs1 := firstPhase.2.2
    if numBits1 > 0 then
      let wholeBytes := BitSource.readWholeBytesAux numBits1 numBits1 result1 bs1
      let numBits2 := wholeBytes.1
      let result2 := wholeBytes.2.1
      let bs2 := wholeBytes.2.2
      if numBits2 > 0 then
        let bitsToNotRead := 8 - numBits2
        let mask := (0xFF >>> bitsToNotRead) <<< bitsToNotRead
        let r := (result2 <<< numBits2) |||
          ((bs2.bytes.getD bs2.byteOffset 0 &&& mask) >>> bitsToNotRead)
        .ok (r, { bs2 with bitOffset := bs2.bitOffset + numBits2 })
      else .ok (result2, bs2)
    else .ok (result1, bs1)

/-! ## DecodedBitStreamParser.decodeNumericSegment
(qrcode/decoder/DecodedBitStreamParser.js, lines 254-260 and 305-346) -/

/-- JavaScript float remainder `a % b` for the non-negative exact values used
here (`fmod`, truncating quotient). -/
def jsFmod (a b : ℚ) : ℚ := a - b * ((a / b).floor : ℚ)

/-- DecodedBitStreamParser.toAlphaNumericChar: its first statement is
`value = Math.floo(value);` -- `Math.floo` does not exist (a typo for
`Math.floor`), so in JavaScript every call raises
`TypeError: Math.floo is not a function` before the range check; the
function can never return a character. -/
def DecodedBitStreamParser.toAlphaNumericChar (_value : ℚ) : Except JsError Char :=
  .error .typeError

def DecodedBitStreamParser.decodeNumericSegment (bits : BitSource) (result : List Char) :
    ℕ → Except JsError (List Char × BitSource)
  | count + 3 => do
    if bits.available < 10 then throw .format
    let r ← bits.readBits 10
    let threeDigitsBits := r.1
    let bits1 := r.2
    if threeDigitsBits ≥ 1000 then throw .format
    let c1 ← DecodedBitStreamParser.toAlphaNumericChar ((threeDigitsBits : ℚ) / 100)
    let c2 ← DecodedBitStreamParser.toAlphaNumericChar (jsFmod ((threeDigitsBits : ℚ) / 10) 10)
    let c3 ← DecodedBitStreamParser.toAlphaNumericChar ((threeDigitsBits % 10 : ℕ) : ℚ)
    DecodedBitStreamParser.decodeNumericSegment bits1 (result ++ [c1, c2, c3]) count
  | 2 => do
    if bits.available < 7 then throw .format
    let r ← bits.readBits 7
    let twoDigitsBits := r.1
    let bits1 := r.2
    if twoDigitsBits ≥ 100 then throw .format
    let c1 ← DecodedBitStreamParser.toAlphaNumericChar ((twoDigitsBits : ℚ) / 10)
    let c2 ← DecodedBitStreamParser.toAlphaNumericChar ((twoDigitsBits % 10 : ℕ) : ℚ)
    pure (result ++ [c1, c2], bits1)
  | 1 => do
    if bits.available < 4 then throw .format
    let r ← bits.readBits 4
    let digitBits := r.1
    let bits1 := r.2
    if digitBits ≥ 10 then throw .format
    let c1 ← DecodedBitStreamParser.toAlphaNumericChar ((digitBits : ℚ))
    pure (result ++ [c1], bits1)
  | 0 => pure (result, bits)

/-! ## GlobalHistogramBinarizer (src/unnamed/part_004)

A luminance source is width, height and the row-major pixel array returned by
`getMatrix()` (`getRow(y)` reads the same pixels).  `getBlackMatrix` samples
four rows for the histogram: rows `Math.floor(height*y/5)` for y = 1..4, with
x running from `Math.floor(width/5)` while `x < (width*4)/5` -- a float bound,
equivalent for integer x to `x < ceil(4*width/5) = (4*width+4)/5`. -/

def LUMINANCE_SHIFT : ℕ := 3

structure LuminanceSource where
  width : ℕ
  height : ℕ
  lum : ℕ → ℕ

def GlobalHistogramBinarizer.histogramBuckets (source : LuminanceSource) : List ℕ :=
  ([1, 2, 3, 4] : List ℕ).foldl (fun buckets y =>
    let row := source.height * y / 5
    (List.range' (source.width / 5) ((4 * source.width + 4) / 5 - source.width / 5)).foldl
      (fun b x =>
        let pixel := source.lum (row * source.width + x) &&& 0xFF
        b.set (pixel >>> LUMINANCE_SHIFT) (b.getD (pixel >>> LUMINANCE_SHIFT) 0 + 1))
      buckets)
    (List.replicate 32 0)

def GlobalHistogramBinarizer.estimateBlackPoint (buckets : List ℕ) : Except JsError ℕ :=
  let numBuckets := buckets.length
  let firstPass :=
    (List.range numBuckets).foldl (fun (acc : ℕ × ℕ × ℕ) x =>
      let fp := acc.1
      let fps := acc.2.1
      let mbc := acc.2.2
      ((if buckets.getD x 0 > fps then x else fp),
       (if buckets.getD x 0 > fps then buckets.getD x 0 else fps),
       (if buckets.getD x 0 > mbc then buckets.getD x 0 else mbc))) (0, 0, 0)
  let firstPeak := firstPass.1
  let maxBucketCount := firstPass.2.2
  let secondPass :=
    (List.range numBuckets).foldl (fun (acc : ℕ × ℤ) (x : ℕ) =>
      let distanceToBiggest : ℤ := (x : ℤ) - (firstPeak : ℤ)
      let score : ℤ := (buckets.getD x 0 : ℤ) * distanceToBiggest * distanceToBiggest
      if score > acc.2 then (x, score) else acc) (0, 0)
  let secondPeak0 := secondPass.1
  let firstPeak1 := if firstPeak > secondPeak0 then secondPeak0 else firstPeak
  let secondPeak := if firstPeak > secondPeak0 then firstPeak else secondPeak0
  -- `secondPeak - firstPeak <= numBuckets / 16` with float division on the
  -- right; for the integer left-hand side this is exactly
  -- `16 * (secondPeak - firstPeak) <= numBuckets`.
  if 16 * (secondPeak - firstPeak1) ≤ numBuckets then .error .notFound
  else
    let valleyPass :=
      ((List.range' (firstPeak1 + 1) (secondPeak - 1 - firstPeak1)).reverse).foldl
        (fun (acc : ℕ × ℤ) (x : ℕ) =>
          let fromFirst : ℤ := (x : ℤ) - (firstPeak1 : ℤ)
          let score : ℤ := fromFirst * fromFirst * ((secondPeak : ℤ) - x) *
            ((maxBucketCount : ℤ) - (buckets.getD x 0 : ℤ))
          if score > acc.2 then (x, score) else acc) (secondPeak - 1, -1)
    .ok (valleyPass.1 <<< LUMINANCE_SHIFT)

def GlobalHistogramBinarizer.getBlackMatrix (source : LuminanceSource) :
    Except JsError BitMatrix :=
  match GlobalHistogramBinarizer.estimateBlackPoint
      (GlobalHistogramBinarizer.histogramBuckets source) with
  | .error e => .error e
  | .ok blackPoint =>
    .ok ((List.range source.height).foldl (fun m y =>
      (List.range source.width).foldl (fun m x =>
        if source.lum (y * source.width + x) &&& 0xFF < blackPoint then m.set x y
        else m) m) (BitMatrix.create source.width source.height))

/-- The claim's input: a 100-wide by 100-high source whose every pixel is 128. -/
def constGray128Source : LuminanceSource := ⟨100, 100, fun _ => 128⟩

/-! ## FinderPatternFinder.selectBestPatterns
(qrcode/detector/FinderPatternFinder.js, lines 567-621)

Only the observation count and the estimated module size of a candidate are
relevant to this routine.  The two `Array.prototype.sort` calls use a stable
sort (modelled by `List.mergeSort`) whose keep-in-order predicate is
`comparator(c1, c2) <= 0`.  The outlier limit is
`max(0.2 * average, stdDev)` with `stdDev = sqrt(square/n - average^2)`; for
the exact rationals used here, `|d| > max(0.2 * average, stdDev)` holds iff
`|d| > 0.2 * average` and `d^2 > square/n - average^2`, which avoids the
irrational square root. -/

structure FinderPattern where
  count : ℕ
  estimatedModuleSize : ℚ
  deriving DecidableEq, Repr

def FinderPatternFinder.exceedsLimit (d avg varr : ℚ) : Bool :=
  decide (|d| > avg / 5) && decide (d * d > varr)

/-- The `for` loop that splices out centers whose module size deviates more
than the limit, stopping as soon as only 3 remain. -/
def FinderPatternFinder.removeOutliers (cond : FinderPattern → Bool) :
    ℕ → List FinderPattern → List FinderPattern
  | i, arr =>
    if h : i < arr.length ∧ 3 < arr.length then
      if cond (arr.getD i ⟨0, 0⟩) then
        FinderPatternFinder.removeOutliers cond i (arr.eraseIdx i)
      else
        FinderPatternFinder.removeOutliers cond (i + 1) arr
    else arr
termination_by i arr => arr.length - i
decreasing_by
  · have : (arr.eraseIdx i).length = arr.length - 1 := by
      rw [List.length_eraseIdx]
      simp [h.1]
    omega
  · omega

def FinderPatternFinder.selectBestPatterns (possibleCenters : List FinderPattern) :
    Except JsError (List FinderPattern) :=
  let startSize := possibleCenters.length
  if startSize < 3 then .error .notFound
  else
    let afterFilter :=
      if startSize > 3 then
        let totalModuleSize := (possibleCenters.map (·.estimatedModuleSize)).sum
        let square := (possibleCenters.map (fun c =>
          c.estimatedModuleSize * c.estimatedModuleSize)).sum
        let average := totalModuleSize / (startSize : ℚ)
        let varr := square / (startSize : ℚ) - average * average
        -- getFurthestFromAverageComparator: c1 may stay before c2 iff
        -- comparator(c1, c2) <= 0, i.e. |c2 - avg| <= |c1 - avg|.
        let sorted := possibleCenters.mergeSort (fun c1 c2 =>
          decide (|c2.estimatedModuleSize - average| ≤ |c1.estimatedModuleSize - average|))
        FinderPatternFinder.removeOutliers
          (fun p => FinderPatternFinder.exceedsLimit
            (p.estimatedModuleSize - average) average varr) 0 sorted
      else possibleCenters
    let afterTop3 :=
      if afterFilter.length > 3 then
        let totalModuleSize := (afterFilter.map (·.estimatedModuleSize)).sum
        let average := totalModuleSize / (afterFilter.length : ℚ)
        -- getCenterComparator: count descending, then deviation ascending.
        (afterFilter.mergeSort (fun c1 c2 =>
          if c1.count = c2.count then
            decide (|c1.estimatedModuleSize - average| ≤ |c2.estimatedModuleSize - average|)
          else decide (c2.count ≤ c1.count))).take 3
      else afterFilter
    .ok (afterTop3.take 3)

/-! ## ReedSolomonEncoder (src/unnamed/part_002) and ReedSolomonDecoder
(common/reedsolomon/ReedSolomonDecoder.js)

The polynomial long-division loops terminate because each step cancels the
remainder's leading coefficient; the remainder's length bounds the iteration
count and is passed as structural fuel (the same loop shape appears inline in
`runEuclideanAlgorithm`).  The outer Euclidean loop decreases `r`'s degree
every iteration, bounded by `R`. -/

def GenericGFPoly.divideAux (f : GenericGF) (other : List ℕ) (dltInverse : ℕ) :
    ℕ → List ℕ → List ℕ → (List ℕ × List ℕ)
  | 0, quotient, remainder => (quotient, remainder)
  | fuel + 1, quotient, remainder =>
    if GenericGFPoly.getDegree remainder ≥ GenericGFPoly.getDegree other ∧
        ¬ GenericGFPoly.isZero remainder then
      let degreeDifference := GenericGFPoly.getDegree remainder - GenericGFPoly.getDegree other
      let scale := f.multiply
        (GenericGFPoly.getCoefficient remainder (GenericGFPoly.getDegree remainder)) dltInverse
      let term := GenericGFPoly.multiplyByMonomial f other degreeDifference scale
      let iterationQuotient := GenericGF.buildMonomial degreeDifference scale
      GenericGFPoly.divideAux f other dltInverse fuel
        (GenericGFPoly.addOrSubtract quotient iterationQuotient)
        (GenericGFPoly.addOrSubtract remainder term)
    else (quotient, remainder)

def GenericGFPoly.divide (f : GenericGF) (p other : List ℕ) :
    Except JsError (List ℕ × List ℕ) :=
  if GenericGFPoly.isZero other then .error .illegalArgument
  else do
    let dltInverse ← f.inverse
      (GenericGFPoly.getCoefficient other (GenericGFPoly.getDegree other))
    pure (GenericGFPoly.divideAux f other dltInverse (p.length + 1) [0] p)

def ReedSolomonEncoder.buildGenerator (f : GenericGF) (degree : ℕ) : List ℕ :=
  (List.range degree).foldl (fun lastGenerator d =>
    GenericGFPoly.multiply f lastGenerator [1, f.exp (d + f.generatorBase)]) [1]

def ReedSolomonEncoder.encode (f : GenericGF) (toEncode : List ℕ) (ecBytes : ℕ) :
    Except JsError (List ℕ) :=
  if ecBytes = 0 then .error .illegalArgument
  else if toEncode.length ≤ ecBytes then .error .illegalArgument
  else do
    let dataBytes := toEncode.length - ecBytes
    let generator := ReedSolomonEncoder.buildGenerator f ecBytes
    let info := GenericGFPoly.normalize (toEncode.take dataBytes)
    let info2 := GenericGFPoly.multiplyByMonomial f info ecBytes 1
    let qr ← GenericGFPoly.divide f info2 generator
    let coefficients := qr.2
    let numZeroCoefficients := ecBytes - coefficients.length
    pure (toEncode.take dataBytes ++ List.replicate numZeroCoefficients 0 ++ coefficients)

def ReedSolomonDecoder.euclidAux (f : GenericGF) (halfR : ℕ) :
    ℕ → List ℕ → List ℕ → List ℕ → List ℕ →
    Except JsError (List ℕ × List ℕ × List ℕ × List ℕ)
  | 0, _, _, _, _ => .error .fuelExhausted
  | fuel + 1, rLast, r, tLast, t =>
    if GenericGFPoly.getDegree r ≥ halfR then
      let rLastLast := rLast
      let tLastLast := tLast
      let rLast1 := r
      let tLast1 := t
      if GenericGFPoly.isZero rLast1 then .error .reedSolomon
      else do
        let dltInverse ← f.inverse
          (GenericGFPoly.getCoefficient rLast1 (GenericGFPoly.getDegree rLast1))
        let qr := GenericGFPoly.divideAux f rLast1 dltInverse
          (rLastLast.length + 1) [0] rLastLast
        let q := qr.1
        let r1 := qr.2
        if GenericGFPoly.getDegree r1 ≥ GenericGFPoly.getDegree rLast1 then .error .illegalState
        else
          ReedSolomonDecoder.euclidAux f halfR fuel rLast1 r1 tLast1
            (GenericGFPoly.addOrSubtract (GenericGFPoly.multiply f q tLast1) tLastLast)
    else pure (rLast, r, tLast, t)

def ReedSolomonDecoder.runEuclideanAlgorithm (f : GenericGF) (a0 b0 : List ℕ) (R : ℕ) :
    Except JsError (List ℕ × List ℕ) := do
  let a := if GenericGFPoly.getDegree a0 < GenericGFPoly.getDegree b0 then b0 else a0
  let b := if GenericGFPoly.getDegree a0 < GenericGFPoly.getDegree b0 then a0 else b0
  let st ← ReedSolomonDecoder.euclidAux f (R / 2) (R + 2) a b [0] [1]
  let r := st.2.1
  let t := st.2.2.2
  let sigmaTildeAtZero := GenericGFPoly.getCoefficient t 0
  if sigmaTildeAtZero = 0 then throw .reedSolomon
  let inv ← f.inverse sigmaTildeAtZero
  pure (GenericGFPoly.multiplyByScalar f t inv, GenericGFPoly.multiplyByScalar f r inv)

def ReedSolomonDecoder.findErrorLocations (f : GenericGF) (errorLocator : List ℕ) :
    Except JsError (List ℕ) := do
  let numErrors := GenericGFPoly.getDegree errorLocator
  if numErrors = 1 then
    pure [GenericGFPoly.getCoefficient errorLocator 1]
  else do
    let result ← (List.range' 1 (f.size - 1)).foldlM (fun (acc : List ℕ) i =>
      if acc.length < numErrors ∧ GenericGFPoly.evaluateAt f errorLocator i = 0 then do
        let inv ← f.inverse i
        pure (acc ++ [inv])
      else pure acc) []
    if result.length ≠ numErrors then throw .reedSolomon
    pure result

def ReedSolomonDecoder.decode (f : GenericGF) (received : List ℕ) (twoS : ℕ) :
    Except JsError (List ℕ) := do
  let poly := GenericGFPoly.normalize received
  let syndromeEvals := (List.range twoS).map (fun i =>
    GenericGFPoly.evaluateAt f poly (f.exp (i + f.generatorBase)))
  if syndromeEvals.all (fun e => e = 0) then pure received
  else do
    let syndrome := GenericGFPoly.normalize syndromeEvals.reverse
    let sigmaOmega ← ReedSolomonDecoder.runEuclideanAlgorithm f
      (GenericGF.buildMonomial twoS 1) syndrome twoS
    let errorLocations ← ReedSolomonDecoder.findErrorLocations f sigmaOmega.1
    let errorMagnitudes ← ReedSolomonDecoder.findErrorMagnitudes f sigmaOmega.2 errorLocations
    (List.range errorLocations.length).foldlM (fun (recv : List ℕ) i => do
      let lg ← f.log (errorLocations.getD i 0)
      if recv.length ≤ lg then throw .reedSolomon
      let position := recv.length - 1 - lg
      pure (recv.set position
        (GenericGF.addOrSubtract (recv.getD position 0) (errorMagnitudes.getD i 0)))) received

/-! ## Theorems -/

/-- C6: for all rounded module counts, letting
`d = floor((tltr + tlbl) / 2) + 7`, `Detector.computeDimension` fails with a
not-found error exactly when `d % 4 = 3`, otherwise returns `d+1` for
`d % 4 = 0`, `d` for `d % 4 = 1` and `d-1` for `d % 4 = 2` (in one formula,
`d + 1 - d % 4`); every successfully returned dimension is `≡ 1 (mod 4)`. -/
theorem computeDimension_mod4_spec (a b : ℕ) :
    (Detector.computeDimension a b =
      (let d := (a + b) / 2 + 7;
       if d % 4 = 3 then .error .notFound else .ok (d + 1 - d % 4))) ∧
    (∀ r : ℕ, Detector.computeDimension a b = .ok r → r % 4 = 1) := by
  constructor
  · unfold Detector.computeDimension
    set d := (a + b) / 2 + 7 with hd
    have h4 : d % 4 < 4 := Nat.mod_lt _ (by norm_num)
    interval_cases h : d % 4 <;> simp [h]
  · intro r hr
    unfold Detector.computeDimension at hr
    set d := (a + b) / 2 + 7 with hd
    have h7 : 7 ≤ d := by omega
    have h4 : d % 4 < 4 := Nat.mod_lt _ (by norm_num)
    interval_cases h : d % 4 <;> simp [h] at hr <;> omega

/-- Witness for `computeDimension_mod4_spec`: at the rounded counts (7, 7),
`d = 14`, `d % 4 = 2`, and the code returns 13 with `13 % 4 = 1`. -/
theorem computeDimension_mod4_spec_witness :
    Detector.computeDimension 7 7 = .ok 13 ∧ 13 % 4 = 1 :=
  ⟨rfl, (computeDimension_mod4_spec 7 7).2 13 rfl⟩

theorem qr_expTable_entries_lt : ∀ i < 256, QR_CODE_FIELD_256.expTable.getD i 0 < 256 := by
  decide

theorem qr_size_eq : QR_CODE_FIELD_256.size = 256 := rfl

theorem qr_multiply_lt (a b : ℕ) : QR_CODE_FIELD_256.multiply a b < 256 := by
  unfold GenericGF.multiply
  split
  · norm_num
  · rw [qr_size_eq]
    exact qr_expTable_entries_lt _ (lt_trans (Nat.mod_lt _ (by norm_num)) (by norm_num))

theorem termPlus1_eq_addOrSubtract_one :
    ∀ term < 256, ReedSolomonDecoder.termPlus1 term = GenericGF.addOrSubtract 1 term := by
  decide

theorem forneyDenominator_eq_unmodified (locs : List ℕ) (i x : ℕ) :
    ReedSolomonDecoder.forneyDenominator QR_CODE_FIELD_256 locs i x =
      ReedSolomonDecoder.forneyDenominatorUnmodified QR_CODE_FIELD_256 locs i x := by
  unfold ReedSolomonDecoder.forneyDenominator ReedSolomonDecoder.forneyDenominatorUnmodified
  apply List.foldl_ext
  intro acc j _
  by_cases hij : i ≠ j
  · simp only [if_pos hij,
      termPlus1_eq_addOrSubtract_one _ (qr_multiply_lt (locs.getD j 0) x)]
  · simp [hij]

/-- C2 counterexample: for `term = 3` (LSB = 1) the factor described by the
claim, `term | 1 = 3`, is neither the factor the code computes
(`term & ~1 = 2`) nor the exact field value `1 XOR 3 = 2`. -/
theorem specForneyFactor_mismatch :
    specForneyFactor 3 = 3 ∧ ReedSolomonDecoder.termPlus1 3 = 2 ∧
    GenericGF.addOrSubtract 1 3 = 2 ∧
    ¬ specForneyFactor 3 = GenericGF.addOrSubtract 1 3 := by
  decide

/-- C2 (amended): the factor the code actually computes is `term | 1` when the
LSB is 0 and `term & ~1` when the LSB is 1 (`ReedSolomonDecoder.termPlus1`);
for every term in GF(2^8) that value equals the exact field value
`1 XOR term`, and consequently `findErrorMagnitudes` computes exactly the
magnitudes of the unmodified Forney formula. -/
theorem findErrorMagnitudes_workaround_equiv :
    (∀ term < 256, ReedSolomonDecoder.termPlus1 term = GenericGF.addOrSubtract 1 term) ∧
    ∀ errorEvaluator errorLocations : List ℕ,
      ReedSolomonDecoder.findErrorMagnitudes QR_CODE_FIELD_256 errorEvaluator errorLocations =
        ReedSolomonDecoder.findErrorMagnitudesUnmodified QR_CODE_FIELD_256
          errorEvaluator errorLocations := by
  refine ⟨termPlus1_eq_addOrSubtract_one, fun ev locs => ?_⟩
  unfold ReedSolomonDecoder.findErrorMagnitudes ReedSolomonDecoder.findErrorMagnitudesUnmodified
  simp only [forneyDenominator_eq_unmodified]

/-- Witness for `findErrorMagnitudes_workaround_equiv`, at term 6 and at the
concrete evaluator `[1]` with error locations `[2, 3]`. -/
theorem findErrorMagnitudes_workaround_equiv_witness :
    ReedSolomonDecoder.termPlus1 6 = GenericGF.addOrSubtract 1 6 ∧
    ReedSolomonDecoder.findErrorMagnitudes QR_CODE_FIELD_256 [1] [2, 3] =
      ReedSolomonDecoder.findErrorMagnitudesUnmodified QR_CODE_FIELD_256 [1] [2, 3] :=
  ⟨findErrorMagnitudes_workaround_equiv.1 6 (by norm_num),
   findErrorMagnitudes_workaround_equiv.2 [1] [2, 3]⟩

@[simp] theorem BitMatrix.offset_mk (w h : ℕ) (r : ℚ) (b : List (ℚ × ℕ)) (x y : ℕ) :
    BitMatrix.offset ⟨w, h, r, b⟩ x y = (y : ℚ) * r + (x : ℚ) / 32 := rfl

theorem BitMatrix.propRead_write_same (bs : List (ℚ × ℕ)) (k : ℚ) (v : ℕ) :
    BitMatrix.propRead (BitMatrix.propWrite bs k v) k = v := by
  simp [BitMatrix.propRead, BitMatrix.propWrite, List.find?_cons_of_pos]

theorem BitMatrix.propRead_write_other (bs : List (ℚ × ℕ)) (k k' : ℚ) (v : ℕ)
    (h : k' ≠ k) : BitMatrix.propRead (BitMatrix.propWrite bs k v) k' = BitMatrix.propRead bs k' := by
  unfold BitMatrix.propRead BitMatrix.propWrite
  rw [List.find?_cons_of_neg _ (by simpa using Ne.symm h)]

theorem bitMatrix_offset_inj (w x y x' y' : ℕ)
    (hx : x < w) (hx' : x' < w)
    (heq : (y : ℚ) * BitMatrix.defaultRowSize w + (x : ℚ) / 32 =
           (y' : ℚ) * BitMatrix.defaultRowSize w + (x' : ℚ) / 32) :
    x = x' ∧ y = y' := by
  unfold BitMatrix.defaultRowSize at heq
  have hnat : y * (w + 31) + x = y' * (w + 31) + x' := by
    field_simp at heq
    exact_mod_cast heq
  have hxw : x < w + 31 := by omega
  have hx'w : x' < w + 31 := by omega
  have hxx : x = x' := by
    have e1 : (y * (w + 31) + x) % (w + 31) = x := by
      rw [Nat.add_comm, Nat.add_mul_mod_self_right, Nat.mod_eq_of_lt hxw]
    have e2 : (y' * (w + 31) + x') % (w + 31) = x' := by
      rw [Nat.add_comm, Nat.add_mul_mod_self_right, Nat.mod_eq_of_lt hx'w]
    rw [← e1, ← e2, hnat]
  refine ⟨hxx, ?_⟩
  have : y * (w + 31) = y' * (w + 31) := by omega
  exact Nat.eq_of_mul_eq_mul_right (by omega) this

theorem lor_shiftLeft_bit_ne_zero (a k : ℕ) : ((a ||| 1 <<< k) >>> k) &&& 1 ≠ 0 := by
  have ht : (a ||| 1 <<< k).testBit k = true := by
    rw [Nat.testBit_lor, Nat.shiftLeft_eq, one_mul, Nat.testBit_two_pow_self]
    simp
  rw [Nat.testBit_to_div_mod] at ht
  rw [Nat.and_one_is_mod, Nat.shiftRight_eq_div_pow]
  simp only [decide_eq_true_eq] at ht
  omega

/-- C9 counterexample: for width 2 (and the default row size) the constructed
matrix has `getRowSize() = 33/32`, the exact float value of `(2 + 31) / 32`,
whereas the integer ceiling `⌈2/32⌉` is 1; the two differ. -/
theorem rowSize_width2_not_ceil :
    (BitMatrix.create 2 2).getRowSize = 33 / 32 ∧ ((2 + 32 - 1) / 32 : ℕ) = 1 ∧
    (BitMatrix.create 2 2).getRowSize ≠ ((1 : ℕ) : ℚ) := by
  refine ⟨?_, rfl, ?_⟩ <;>
    norm_num [BitMatrix.create, BitMatrix.getRowSize, BitMatrix.defaultRowSize]

/-- C9 (amended): for every width `w ≥ 1`, the default-constructed BitMatrix
has `getRowSize()` equal to the exact (float) value `(w + 31) / 32`, which is
generally fractional; it equals the integer ceiling `⌈w/32⌉` precisely when
`w ≡ 1 (mod 32)`.  Bit `x` of row `y` lives at the backing-store property key
`y * rowSize + x/32` (a rational), bit position `x mod 32`. -/
theorem rowSize_default_exact (w h : ℕ) (_hw : 1 ≤ w) :
    (BitMatrix.create w h).getRowSize = ((w : ℚ) + 31) / 32 ∧
    ((BitMatrix.create w h).getRowSize = (((w + 31) / 32 : ℕ) : ℚ) ↔ w % 32 = 1) := by
  refine ⟨rfl, ?_⟩
  have h1 : (BitMatrix.create w h).getRowSize = ((w : ℚ) + 31) / 32 := rfl
  rw [h1, div_eq_iff (by norm_num : (32 : ℚ) ≠ 0)]
  rw [show ((w : ℚ) + 31) = ((w + 31 : ℕ) : ℚ) by push_cast; ring]
  rw [show (((w + 31) / 32 : ℕ) : ℚ) * 32 = (((w + 31) / 32 * 32 : ℕ) : ℚ) by push_cast; ring]
  rw [Nat.cast_inj]
  omega

/-- Witness for `rowSize_default_exact`, at width 2: the row size is the
fractional 33/32 and indeed `2 % 32 ≠ 1`, so both sides of the iff are false. -/
theorem rowSize_default_exact_witness :
    1 ≤ 2 ∧
    ((BitMatrix.create 2 5).getRowSize = ((2 : ℚ) + 31) / 32 ∧
     ((BitMatrix.create 2 5).getRowSize = (((2 + 31) / 32 : ℕ) : ℚ) ↔ 2 % 32 = 1)) :=
  ⟨by norm_num, rowSize_default_exact 2 5 (by norm_num)⟩

/-- C10: on a default-row-size matrix of width `w`, height `h`, with any
backing store (in particular any store reachable through set/unset/flip),
setting an in-range bit `(x, y)` makes `get (x, y)` true, and leaves
`get (x', y')` unchanged for every other in-range coordinate: distinct
in-range coordinates never alias the same backing-store slot even though the
word offset `y * rowSize + x/32` is fractional. -/
theorem bitMatrix_set_get_frame (w h x y x' y' : ℕ) (bits : List (ℚ × ℕ))
    (hx : x < w) (_hy : y < h) (hx' : x' < w) (_hy' : y' < h) :
    BitMatrix.get (BitMatrix.set ⟨w, h, BitMatrix.defaultRowSize w, bits⟩ x y) x y = true ∧
    ((x, y) ≠ (x', y') →
      BitMatrix.get (BitMatrix.set ⟨w, h, BitMatrix.defaultRowSize w, bits⟩ x y) x' y' =
        BitMatrix.get ⟨w, h, BitMatrix.defaultRowSize w, bits⟩ x' y') := by
  constructor
  · simp only [BitMatrix.get, BitMatrix.set, BitMatrix.offset_mk,
      BitMatrix.propRead_write_same]
    simpa using lor_shiftLeft_bit_ne_zero
      (BitMatrix.propRead bits ((y : ℚ) * BitMatrix.defaultRowSize w + (x : ℚ) / 32)) (x % 32)
  · intro hne
    have hoff : (y' : ℚ) * BitMatrix.defaultRowSize w + (x' : ℚ) / 32 ≠
        (y : ℚ) * BitMatrix.defaultRowSize w + (x : ℚ) / 32 := by
      intro hcontra
      rcases bitMatrix_offset_inj w x' y' x y hx' hx hcontra with ⟨hxe, hye⟩
      exact hne (by simp [hxe, hye])
    simp only [BitMatrix.get, BitMatrix.set, BitMatrix.offset_mk]
    rw [BitMatrix.propRead_write_other _ _ _ _ hoff]

/-- Witness for `bitMatrix_set_get_frame`: a 2x2 matrix with empty store,
setting (1, 0) and probing (1, 0) and (0, 1). -/
theorem bitMatrix_set_get_frame_witness :
    (1 < 2 ∧ 0 < 2 ∧ 0 < 2 ∧ 1 < 2) ∧
    (BitMatrix.get (BitMatrix.set ⟨2, 2, BitMatrix.defaultRowSize 2, []⟩ 1 0) 1 0 = true ∧
     (((1 : ℕ), (0 : ℕ)) ≠ ((0 : ℕ), (1 : ℕ)) →
       BitMatrix.get (BitMatrix.set ⟨2, 2, BitMatrix.defaultRowSize 2, []⟩ 1 0) 0 1 =
         BitMatrix.get ⟨2, 2, BitMatrix.defaultRowSize 2, []⟩ 0 1)) :=
  ⟨⟨by norm_num, by norm_num, by norm_num, by norm_num⟩,
   bitMatrix_set_get_frame 2 2 1 0 0 1 [] (by norm_num) (by norm_num) (by norm_num) (by norm_num)⟩

/-- C5 (code bug): `makeTypeInfoBits`, invoked as its caller `embedTypeInfo`
invokes it (on a fresh default `new BitArray()`, whose backing `Uint32Array`
has length 0), produces a 15-bit array whose bits all read back 0 for every
(level, mask) pair, because every `appendBit` write is dropped; e.g. the
(L, 0) and (M, 5) outputs are the identical all-zero array (Hamming distance
0, not >= 7).  The intended codeword formula from the claim gives the nonzero
standard value 0x77C4 for (L, 0), and its 32 codewords do have pairwise
distance >= 7. -/
theorem makeTypeInfoBits_appendBit_dropped :
    MatrixUtil.typeInfoBitsAsEmbedded 1 0 = .ok ⟨15, []⟩ ∧
    MatrixUtil.typeInfoBitsAsEmbedded 0 5 = .ok ⟨15, []⟩ ∧
    ((List.range 15).all (fun i => !(BitArray.get ⟨15, []⟩ i))) = true ∧
    mathTypeInfoCode 1 0 = 0x77C4 ∧
    ((List.range 32).all (fun i => (List.range 32).all (fun j =>
      (i == j) ||
        Nat.ble 7 (popCount15 (allTypeInfoCodes.getD i 0 ^^^ allTypeInfoCodes.getD j 0))))) = true := by
  refine ⟨rfl, rfl, by decide, rfl, by decide⟩

/-- C4 (code bug): with 152 input bits (exactly 19 bytes) and EC level L,
the claim's ceiling comparison selects version 1 (capacity 19 >= ceil(152/8)
= 19), but the code's float comparison computes totalInputBytes = 159/8 =
19.875 and rejects version 1, returning version 2; and when no version fits,
the code does fail with a writer error. -/
theorem chooseVersion_float_division_bug :
    Encoder.chooseVersion 152 versionDataBytesL = .ok 2 ∧
    Encoder.chooseVersionCeil 152 versionDataBytesL = .ok 1 ∧
    (152 + 7) / 8 = 19 ∧ versionDataBytesL 1 = 19 ∧
    Encoder.chooseVersion 152 (fun _ => 0) = .error .writer := by
  refine ⟨?_, rfl, by norm_num, rfl, ?_⟩ <;>
    norm_num [Encoder.chooseVersion, Encoder.chooseVersionFrom, versionDataBytesL]

/-- C3 (code bug): on the in-range numeric segment of count 3 whose single
10-bit group reads the value 1 (< 1000) from bytes `[0x00, 0x40]`, the decoder
does not append the digits "001": the very first `toAlphaNumericChar` call
raises a TypeError, because `Math.floo` is not a function. -/
theorem decodeNumericSegment_typeError :
    DecodedBitStreamParser.decodeNumericSegment ⟨[0, 64], 0, 0⟩ [] 3 = .error .typeError ∧
    (⟨[0, 64], 0, 0⟩ : BitSource).readBits 10 = .ok (1, ⟨[0, 64], 1, 2⟩) ∧
    DecodedBitStreamParser.toAlphaNumericChar 0 = .error .typeError :=
  ⟨rfl, rfl, rfl⟩

theorem list_foldl_const {α : Type} {β : Type} (l : List β) (init : α) :
    l.foldl (fun m _ => m) init = init := by
  induction l generalizing init with
  | nil => rfl
  | cons a t ih => rw [List.foldl_cons]; exact ih init

theorem estimateBlackPoint_const128 :
    GlobalHistogramBinarizer.estimateBlackPoint
      (GlobalHistogramBinarizer.histogramBuckets constGray128Source) = .ok 88 := by
  decide

theorem getBlackMatrix_const128_eval :
    GlobalHistogramBinarizer.getBlackMatrix constGray128Source =
      .ok (BitMatrix.create 100 100) := by
  unfold GlobalHistogramBinarizer.getBlackMatrix
  rw [estimateBlackPoint_const128]
  show Except.ok _ = _
  refine congrArg Except.ok ?_
  rw [show constGray128Source.width = 100 from rfl,
    show constGray128Source.height = 100 from rfl]
  have houter : (fun (m : BitMatrix) (y : ℕ) =>
      (List.range 100).foldl (fun m x =>
        if constGray128Source.lum (y * 100 + x) &&& 0xFF < 88 then BitMatrix.set m x y
        else m) m) = fun m _ => m := by
    funext m y
    have hfun : (fun (m : BitMatrix) (x : ℕ) =>
        if constGray128Source.lum (y * 100 + x) &&& 0xFF < 88 then BitMatrix.set m x y
        else m) = fun m _ => m := by
      funext m x
      exact if_neg (by
        show ¬(128 &&& 0xFF < 88)
        decide)
    rw [hfun, list_foldl_const]
  rw [houter, list_foldl_const]

/-- C7 counterexample: on the 100x100 all-128 source,
`GlobalHistogramBinarizer.getBlackMatrix` does not fail with not-found: it
returns a matrix.  (The histogram has a single spike in bucket 16;
`secondPeak` keeps its default 0, the black/white swap makes the peak pair
(0, 16), and the separation 16 exceeds buckets/16 = 2, so the not-found
branch is not taken.) -/
theorem getBlackMatrix_const128_not_error :
    (GlobalHistogramBinarizer.getBlackMatrix constGray128Source).isOk = true := by
  rw [getBlackMatrix_const128_eval]
  rfl

/-- C7 (amended): for the 100x100 all-128 source, getBlackMatrix succeeds and
returns the all-unset 100x100 matrix: the estimated black point is 88
(valley bucket 11 shifted left by LUMINANCE_SHIFT = 3), and every pixel 128
is >= 88, so no bit is ever set and no not-found error is raised. -/
theorem getBlackMatrix_const128_allWhite :
    GlobalHistogramBinarizer.getBlackMatrix constGray128Source =
      .ok (BitMatrix.create 100 100) ∧
    GlobalHistogramBinarizer.estimateBlackPoint
      (GlobalHistogramBinarizer.histogramBuckets constGray128Source) = .ok 88 :=
  ⟨getBlackMatrix_const128_eval, estimateBlackPoint_const128⟩

/-- C8 counterexample: three candidates, each observed only once
(count 1 < CENTER_QUORUM = 2): `selectBestPatterns` succeeds and returns
them, rather than raising not-found, and none of the returned patterns has
count >= 2. -/
theorem selectBestPatterns_no_quorum_ok :
    FinderPatternFinder.selectBestPatterns [⟨1, 5⟩, ⟨1, 5⟩, ⟨1, 5⟩] =
      .ok [⟨1, 5⟩, ⟨1, 5⟩, ⟨1, 5⟩] ∧
    (⟨1, 5⟩ : FinderPattern).count < 2 := by
  exact ⟨rfl, by norm_num⟩

/-- C8 (amended): `selectBestPatterns` raises a not-found error exactly when
the candidate list holds fewer than 3 candidates, regardless of their
observation counts; no CENTER_QUORUM condition is enforced here (that check
lives in `haveMultiplyConfirmedCenters`), and the three returned patterns may
have any counts. -/
theorem selectBestPatterns_error_iff (possibleCenters : List FinderPattern) :
    (FinderPatternFinder.selectBestPatterns possibleCenters = .error .notFound ↔
      possibleCenters.length < 3) := by
  by_cases h : possibleCenters.length < 3
  · simp [FinderPatternFinder.selectBestPatterns, h]
  · simp [FinderPatternFinder.selectBestPatterns, h]

/-- Concrete Reed-Solomon round trip over the QR field: encoding the 3 data
bytes [10, 20, 30] with 4 EC bytes yields the codeword
[10, 20, 30, 39, 48, 5, 18]; corrupting floor(4/2) = 2 of its bytes
(position 0 to 99 and position 5 to 1) and decoding restores the codeword
exactly. -/
theorem rs_roundtrip_instance :
    ReedSolomonEncoder.encode QR_CODE_FIELD_256 [10, 20, 30, 0, 0, 0, 0] 4 =
      .ok [10, 20, 30, 39, 48, 5, 18] ∧
    ReedSolomonDecoder.decode QR_CODE_FIELD_256 [99, 20, 30, 39, 48, 1, 18] 4 =
      .ok [10, 20, 30, 39, 48, 5, 18] := by
  exact ⟨by decide, by decide⟩

/-- Concrete Reed-Solomon round trip with an odd EC count: 2 data bytes with
3 EC bytes, one byte (floor(3/2) = 1) corrupted inside the EC part. -/
theorem rs_roundtrip_instance_odd :
    ReedSolomonEncoder.encode QR_CODE_FIELD_256 [17, 34, 0, 0, 0] 3 =
      .ok [17, 34, 88, 249, 146] ∧
    ReedSolomonDecoder.decode QR_CODE_FIELD_256 [17, 34, 88, 0, 146] 3 =
      .ok [17, 34, 88, 249, 146] := by
  exact ⟨by decide, by decide⟩
